import Mathlib

/-!
Verification of the CASSANDRA FDI idea-scoring engine.

Shallow embedding of `src/pages/api/score.ts`: the rate limiter
(`getRateLimit`), the heuristic scoring helpers (`clamp`,
`scoreFromHits`, the market-viability and pivot-to-AI branches), the
composite score, and the request handler's control flow.

Modelling conventions:
* JS numbers on the engine's integer paths are modelled as `ℤ`, fractional
  intermediates as `ℚ`; `Math.round` is `⌊x + 1/2⌋` (exact JS semantics on
  the rationals).  `Math.log` is `Real.log`, which makes the definitions
  that depend on it noncomputable — everything else is computable.
* Each call to `Math.random()` is modelled by an explicit parameter
  `u : ℚ` ranging over `[0, 1)`; `Math.floor(Math.random() * n)` becomes
  `⌊u * n⌋`.
* The regex-driven keyword counter `countMatches` and the whitespace word
  count are abstracted as natural-number parameters (`aiHits`, `buzzHits`,
  `cringeHits`, `wordCount`); every theorem quantifies over all their
  possible values, hence over all possible input texts.
* The LRU cache backing the limiter is modelled as a total map
  `String → ℕ` with absent identities conflated with count 0, exactly as
  `rateLimiter.get(ip) ?? 0` does.  TTL expiry and capacity eviction are
  not modelled: the claims under scrutiny concern behaviour within a
  single window for fewer than 500 identities, where neither fires.
* The upstream LLM call is modelled by an oracle outcome `LlmOutcome`:
  a non-success HTTP status, a reply whose body throws while being parsed
  (malformed JSON, missing `choices`, ...), or a parsed JSON object.  A
  parsed object's fields are `Option`-valued: `none` models a missing
  field (JS `undefined`), which the source's `clamp`/arithmetic turn into
  `NaN`; `none` on an `ℤ`-valued result field likewise models `NaN`.
-/

namespace FDI

/-- JS `Math.round` on an exact rational: round half toward positive
infinity, i.e. `⌊q + 1/2⌋`. -/
def jsRoundQ (q : ℚ) : ℤ := ⌊q + 1 / 2⌋

/-- JS `Math.round` on a real intermediate (the `Math.log` path). -/
noncomputable def jsRoundR (x : ℝ) : ℤ := ⌊x + 1 / 2⌋

/-- The source's `clamp(val, min = 0, max = 100)`:
`Math.min(Math.max(Math.round(val), min), max)`. -/
def clamp (val : ℚ) (lo hi : ℤ) : ℤ := min (max (jsRoundQ val) lo) hi

/-- Rate-limiter state: identity → stored request count (absent = 0,
matching `rateLimiter.get(ip) ?? 0`). -/
abbrev RLState := String → ℕ

/-- The empty cache: every identity is fresh. -/
def freshState : RLState := fun _ => 0

/-- The source's `REQUESTS_PER_HOUR` threshold. -/
def REQUESTS_PER_HOUR : ℕ := 5

/-- The source's `getRateLimit(ip)`: read the current count (0 when
absent); if it has reached the threshold, deny without incrementing;
otherwise increment the stored count and report the remaining budget. -/
def getRateLimit (ip : String) (st : RLState) : (Bool × ℕ) × RLState :=
  let current := st ip
  if REQUESTS_PER_HOUR ≤ current then ((false, 0), st)
  else ((true, REQUESTS_PER_HOUR - (current + 1)),
        fun k => if k = ip then current + 1 else st k)

/-- Iterate `getRateLimit` `n` times for one identity, collecting the
`(allowed, remaining)` results in call order together with the final
cache state. -/
def runChecks : ℕ → String → RLState → List (Bool × ℕ) × RLState
  | 0, _, st => ([], st)
  | n + 1, ip, st =>
      let r := getRateLimit ip st
      let rest := runChecks n ip r.2
      (r.1 :: rest.1, rest.2)

/-- Run a sequence of checks for arbitrary identities, keeping only the
cache state. -/
def runSeq (ips : List String) (st : RLState) : RLState :=
  List.foldl (fun s i => (getRateLimit i s).2) st ips

/-- Number of `allowed = true` results in a list of check outcomes. -/
def countAllowed (l : List (Bool × ℕ)) : ℕ :=
  (List.filter (fun p => p.1) l).length

/-- The identity derivation from the handler: first comma-separated
segment of `x-forwarded-for` trimmed, else the socket remote address,
else the literal `"unknown"`. -/
def deriveIp (header : Option String) (remote : Option String) : String :=
  match header with
  | some h => ((h.splitOn ",").headD "").trim
  | none =>
      match remote with
      | some r => r
      | none => "unknown"

/-- JS falsiness of the `idea` field as the source's `if (!idea)` sees a
missing or string-valued field: `undefined` and `""` are falsy. -/
def jsFalsyIdea : Option String → Bool
  | none => true
  | some s => s.isEmpty

-- Basic facts about `getRateLimit`.

theorem getRateLimit_denied {ip : String} {st : RLState}
    (h : REQUESTS_PER_HOUR ≤ st ip) :
    getRateLimit ip st = ((false, 0), st) := by
  simp [getRateLimit, h]

theorem getRateLimit_allowed {ip : String} {st : RLState}
    (h : st ip < REQUESTS_PER_HOUR) :
    getRateLimit ip st =
      ((true, REQUESTS_PER_HOUR - (st ip + 1)),
       fun k => if k = ip then st ip + 1 else st k) := by
  simp [getRateLimit, Nat.not_le.mpr h]

/-- One check never lifts any stored count above the threshold, provided
it was not above it before. -/
theorem getRateLimit_preserves_le (ip : String) (st : RLState)
    (h : ∀ k, st k ≤ REQUESTS_PER_HOUR) (k : String) :
    ((getRateLimit ip st).2) k ≤ REQUESTS_PER_HOUR := by
  by_cases hc : REQUESTS_PER_HOUR ≤ st ip
  · rw [getRateLimit_denied hc]
    exact h k
  · rw [getRateLimit_allowed (Nat.lt_of_not_le hc)]
    by_cases hk : k = ip
    · simp [hk]
      omega
    · simp [hk]
      exact h k

/-- Invariant propagation along any sequence of checks. -/
theorem runSeq_preserves_le (ips : List String) (st : RLState)
    (h : ∀ k, st k ≤ REQUESTS_PER_HOUR) (k : String) :
    runSeq ips st k ≤ REQUESTS_PER_HOUR := by
  induction ips generalizing st with
  | nil => exact h k
  | cons i l ih =>
      simp only [runSeq, List.foldl] at *
      exact ih _ (getRateLimit_preserves_le i st h)

/-- C8: for every identity, after any sequence of `check` calls starting
from an empty cache, the stored count never exceeds the threshold 5: a
call finding the count at the threshold is denied and does not increment
it further. -/
theorem stored_count_le_threshold (ips : List String) (k : String) :
    runSeq ips freshState k ≤ REQUESTS_PER_HOUR :=
  runSeq_preserves_le ips freshState (fun _ => by simp [freshState, REQUESTS_PER_HOUR]) k

/-- C2: for any fresh identity, six successive `check` calls within one
window return `(allowed, remaining)` results
`(true,4), (true,3), (true,2), (true,1), (true,0), (false,0)` in order;
the stored count after the fifth call is 5 and the denied sixth call
leaves it at 5 (a denied call does not increment the count). -/
theorem rate_limit_first_six_calls (ip : String) :
    (runChecks 6 ip freshState).1 =
      [(true, 4), (true, 3), (true, 2), (true, 1), (true, 0), (false, 0)] ∧
    (runChecks 5 ip freshState).2 ip = 5 ∧
    (runChecks 6 ip freshState).2 ip = 5 := by
  refine ⟨?_, ?_, ?_⟩ <;>
    simp [runChecks, getRateLimit, freshState, REQUESTS_PER_HOUR]

/-- Counting allowed results: starting below or at the threshold, the
total number of granted checks can only make up the difference to the
threshold. -/
theorem countAllowed_le (n : ℕ) (ip : String) (st : RLState)
    (h : st ip ≤ REQUESTS_PER_HOUR) :
    st ip + countAllowed (runChecks n ip st).1 ≤ REQUESTS_PER_HOUR := by
  induction n generalizing st with
  | zero => simpa [runChecks, countAllowed] using h
  | succ n ih =>
      by_cases hc : REQUESTS_PER_HOUR ≤ st ip
      · have hst : st ip = REQUESTS_PER_HOUR := le_antisymm h hc
        simp only [runChecks, getRateLimit_denied hc]
        have := ih st h
        simp only [countAllowed, List.filter] at *
        omega
      · have hlt : st ip < REQUESTS_PER_HOUR := Nat.lt_of_not_le hc
        simp only [runChecks, getRateLimit_allowed hlt]
        set st' : RLState := fun k => if k = ip then st ip + 1 else st k with hst'
        have hst'ip : st' ip = st ip + 1 := by simp [hst']
        have := ih st' (by rw [hst'ip]; omega)
        rw [hst'ip] at this
        simp only [countAllowed, List.filter, List.length_cons] at *
        omega

/-- C10: when both the `x-forwarded-for` header and the socket remote
address are absent, the derived rate-limit identity is the fixed string
`"unknown"`; consequently all such callers share one counter and, in any
number of checks within one window, collectively receive at most the
threshold (5) of allowed requests. -/
theorem unknown_identity_shared_limit :
    deriveIp none none = "unknown" ∧
    ∀ n : ℕ,
      countAllowed (runChecks n (deriveIp none none) freshState).1 ≤
        REQUESTS_PER_HOUR := by
  refine ⟨rfl, fun n => ?_⟩
  have := countAllowed_le n (deriveIp none none) freshState
    (by simp [freshState, REQUESTS_PER_HOUR])
  simpa [freshState] using this

-- ── Scoring helpers ─────────────────────────────────────────────────────

/-- Pre-jitter base score of `scoreFromHits(hits, ramp)`: 60 on the
zero-hit branch, otherwise `Math.min(100, Math.round(65 + 22 *
Math.log(hits * ramp)))`. -/
noncomputable def scoreBase (hits : ℕ) (ramp : ℚ) : ℤ :=
  if hits = 0 then 60
  else min 100 (jsRoundR (65 + 22 * Real.log ((hits : ℝ) * (ramp : ℝ))))

/-- The source's `scoreFromHits(hits, ramp)` with the `Math.random()`
draw made explicit as `u`: jitter is `Math.floor(u * 14) - 7`, and both
branches clamp `base + jitter` into `[0, 100]`. -/
noncomputable def scoreFromHits (hits : ℕ) (ramp : ℚ) (u : ℚ) : ℤ :=
  let jitter : ℤ := ⌊u * 14⌋ - 7
  clamp ((scoreBase hits ramp + jitter : ℤ) : ℚ) 0 100

/-- The handler's market-viability computation: base 55, plus a
specificity bonus `min(wordCount / 1.2, 30)`, minus the rounded hype
penalty `(ai + buzz) / 14`, plus jitter, clamped. -/
def marketViability (wordCount : ℕ) (ai buzz : ℤ) (u : ℚ) : ℤ :=
  let specificityBonus : ℚ := min ((wordCount : ℚ) / 1.2) 30
  let hypePenalty : ℤ := jsRoundQ (((ai + buzz : ℤ) : ℚ) / 14)
  let marketBase : ℚ := 55 + specificityBonus - (hypePenalty : ℤ)
  let jitter : ℤ := ⌊u * 14⌋ - 7
  clamp (marketBase + (jitter : ℤ)) 0 100

/-- The handler's pivot-to-AI branch heuristic, first matching branch
wins, each branch a jittered clamped sub-range. -/
def pivotScore (ai buzz market : ℤ) (u : ℚ) : ℤ :=
  if 60 ≤ ai then clamp ((55 + ⌊u * 20⌋ : ℤ) : ℚ) 0 100
  else if 50 ≤ buzz then clamp ((82 + ⌊u * 15⌋ : ℤ) : ℚ) 0 100
  else if 55 ≤ market then clamp ((70 + ⌊u * 20⌋ : ℤ) : ℚ) 0 100
  else clamp ((65 + ⌊u * 25⌋ : ℤ) : ℚ) 0 100

/-- The handler's composite score:
`clamp(Math.round((a + b + c + m + p + y + d) / 7))`. -/
def compositeScore (a b c m p y d : ℤ) : ℤ :=
  clamp ((jsRoundQ (((a + b + c + m + p + y + d : ℤ) : ℚ) / 7) : ℤ) : ℚ) 0 100

-- Arithmetic facts about rounding and clamping.

theorem jsRoundQ_intCast (n : ℤ) : jsRoundQ ((n : ℚ)) = n := by
  unfold jsRoundQ
  rw [add_comm, Int.floor_add_int]
  norm_num

theorem jsRoundQ_eq_round (q : ℚ) : jsRoundQ q = round q := by
  rw [round_eq]
  rfl

/-- Clamping really lands in the declared interval as soon as the
interval is nonempty. -/
theorem clamp_mem (val : ℚ) (lo hi : ℤ) (h : lo ≤ hi) :
    lo ≤ clamp val lo hi ∧ clamp val lo hi ≤ hi := by
  unfold clamp
  constructor
  · exact le_min (le_max_right _ _) h
  · exact min_le_right _ _

theorem clamp_intCast (n lo hi : ℤ) :
    clamp ((n : ℚ)) lo hi = min (max n lo) hi := by
  unfold clamp
  rw [jsRoundQ_intCast]

/-- C6: the composite score equals the unweighted arithmetic mean of the
seven metric values, rounded to the nearest integer and clamped to
`[0, 100]`. -/
theorem composite_eq_rounded_mean (a b c m p y d : ℤ) :
    compositeScore a b c m p y d =
      min (max (round (((a + b + c + m + p + y + d : ℤ) : ℚ) / 7)) 0) 100 := by
  unfold compositeScore
  rw [clamp_intCast, jsRoundQ_eq_round]

/-- Jitter bounds: a `Math.random()` draw `u ∈ [0,1)` gives
`Math.floor(u * 14) ∈ [0, 13]`. -/
theorem floor_mul_fourteen_bounds {u : ℚ} (h0 : 0 ≤ u) (h1 : u < 1) :
    0 ≤ ⌊u * 14⌋ ∧ ⌊u * 14⌋ ≤ 13 := by
  constructor
  · exact Int.floor_nonneg.mpr (by positivity)
  · have hlt : u * 14 < 14 := by nlinarith
    have : ⌊u * 14⌋ < (14 : ℤ) := Int.floor_lt.mpr (by exact_mod_cast hlt)
    omega

/-- C7: on zero keyword hits, for any ramp and any jitter draw
`u ∈ [0,1)`, `scoreFromHits` returns a value inside the floor band the
source documents (53–67; the attainable values are exactly 53–66), and
in particular never 0. -/
theorem zero_hit_floor_band (ramp : ℚ) (u : ℚ) (h0 : 0 ≤ u) (h1 : u < 1) :
    53 ≤ scoreFromHits 0 ramp u ∧ scoreFromHits 0 ramp u ≤ 66 ∧
      0 < scoreFromHits 0 ramp u := by
  have hj := floor_mul_fourteen_bounds h0 h1
  have hbase : scoreBase 0 ramp = 60 := by simp [scoreBase]
  simp only [scoreFromHits, hbase]
  rw [clamp_intCast]
  omega

/-- C7 witness: at ramp 2 and random draw 0 the hypotheses hold and the
zero-hit score sits in the floor band. -/
theorem zero_hit_floor_band_witness :
    (0 : ℚ) ≤ 0 ∧ (0 : ℚ) < 1 ∧
      (53 ≤ scoreFromHits 0 2 0 ∧ scoreFromHits 0 2 0 ≤ 66 ∧
        0 < scoreFromHits 0 2 0) :=
  ⟨le_refl 0, by norm_num, zero_hit_floor_band 2 0 (le_refl 0) (by norm_num)⟩

/-- Monotonicity of the pre-jitter base in the hit count, for any ramp
at least 1 (the step from the zero-hit floor 60 up to the logarithmic
branch included). -/
theorem scoreBase_mono {ramp : ℚ} (hramp : 1 ≤ ramp) {h1 h2 : ℕ}
    (hle : h1 ≤ h2) : scoreBase h1 ramp ≤ scoreBase h2 ramp := by
  have hrampR : (1 : ℝ) ≤ (ramp : ℝ) := by exact_mod_cast hramp
  by_cases hz1 : h1 = 0
  · subst hz1
    by_cases hz2 : h2 = 0
    · subst hz2
      exact le_refl _
    · have h2one : (1 : ℝ) ≤ (h2 : ℝ) := by
        have : 1 ≤ h2 := Nat.one_le_iff_ne_zero.mpr hz2
        exact_mod_cast this
      have hb0 : scoreBase 0 ramp = 60 := by simp [scoreBase]
      have hb2 : scoreBase h2 ramp =
          min 100 (jsRoundR (65 + 22 * Real.log ((h2 : ℝ) * (ramp : ℝ)))) := by
        unfold scoreBase
        rw [if_neg hz2]
      rw [hb0, hb2]
      refine le_min (by norm_num) ?_
      unfold jsRoundR
      rw [Int.le_floor]
      have hlog : 0 ≤ Real.log ((h2 : ℝ) * (ramp : ℝ)) :=
        Real.log_nonneg (by nlinarith)
      push_cast
      linarith
  · have hz2 : h2 ≠ 0 := by
      intro h
      exact hz1 (Nat.le_zero.mp (h ▸ hle))
    have h1one : (1 : ℝ) ≤ (h1 : ℝ) := by
      have : 1 ≤ h1 := Nat.one_le_iff_ne_zero.mpr hz1
      exact_mod_cast this
    have hcast : ((h1 : ℕ) : ℝ) ≤ ((h2 : ℕ) : ℝ) := by exact_mod_cast hle
    have hb1 : scoreBase h1 ramp =
        min 100 (jsRoundR (65 + 22 * Real.log ((h1 : ℝ) * (ramp : ℝ)))) := by
      unfold scoreBase
      rw [if_neg hz1]
    have hb2 : scoreBase h2 ramp =
        min 100 (jsRoundR (65 + 22 * Real.log ((h2 : ℝ) * (ramp : ℝ)))) := by
      unfold scoreBase
      rw [if_neg hz2]
    rw [hb1, hb2]
    refine min_le_min (le_refl _) ?_
    unfold jsRoundR
    apply Int.floor_mono
    have hpos : (0 : ℝ) < (h1 : ℝ) * (ramp : ℝ) := by nlinarith
    have hmul : (h1 : ℝ) * (ramp : ℝ) ≤ (h2 : ℝ) * (ramp : ℝ) := by nlinarith
    have hlog := Real.log_le_log hpos hmul
    linarith

/-- C9: for each ramp the engine actually passes to `scoreFromHits`
(2.5 for AI hype, 2 for buzzwords, 3 for cringe), the pre-jitter base
score is monotonically non-decreasing in the hit count, including across
the step from zero hits to one hit. -/
theorem scoreBase_mono_engine_ramps (ramp : ℚ)
    (hr : ramp = 2.5 ∨ ramp = 2 ∨ ramp = 3) (h1 h2 : ℕ) (hle : h1 ≤ h2) :
    scoreBase h1 ramp ≤ scoreBase h2 ramp := by
  have hramp : (1 : ℚ) ≤ ramp := by
    rcases hr with h | h | h <;> rw [h] <;> norm_num
  exact scoreBase_mono hramp hle

/-- C9 witness: ramp 2 is an engine ramp and the base at 0 hits is at
most the base at 3 hits. -/
theorem scoreBase_mono_engine_ramps_witness :
    ((2 : ℚ) = 2.5 ∨ (2 : ℚ) = 2 ∨ (2 : ℚ) = 3) ∧ 0 ≤ 3 ∧
      scoreBase 0 2 ≤ scoreBase 3 2 :=
  ⟨Or.inr (Or.inl rfl), by norm_num,
    scoreBase_mono_engine_ramps 2 (Or.inr (Or.inl rfl)) 0 3 (by norm_num)⟩

-- ── Handler pipeline ────────────────────────────────────────────────────

/-- The parsed JSON object taken from the LLM reply.  A `none` field
models a field missing from the reply (JS `undefined`); the source reads
the four fields by property access with no presence check. -/
structure LlmJson where
  yc_bait_score : Option ℚ
  delusion_index : Option ℚ
  founder_rank : Option String
  goblin_verdict : Option String

/-- Outcome of the upstream LLM call: a non-success HTTP status
(`!response.ok`), a body whose JSON extraction throws (malformed JSON,
missing `choices`, ...), or a parsed object. -/
inductive LlmOutcome where
  | httpError : LlmOutcome
  | badJson : LlmOutcome
  | ok : LlmJson → LlmOutcome

/-- The distinct error responses the handler can produce: 405, 429,
400 `"Missing idea"`, 500 `"LLM request failed"`, and the catch-all 500
`"Internal server error"`. -/
inductive ApiError where
  | methodNotAllowed : ApiError
  | rateLimited : ApiError
  | missingIdea : ApiError
  | llmFailed : ApiError
  | internal : ApiError

/-- The source's `ScoreResponse`.  Integer metrics are `ℤ`; the two
augmented numeric fields and the composite are `Option ℤ` where `none`
models `NaN` (arising from a missing reply field); the two string fields
are `Option String` where `none` models `undefined`. -/
structure ScoreResponse where
  ai_hype_beast : ℤ
  buzzword_density : ℤ
  cringe_founder_energy : ℤ
  market_viability : ℤ
  pivot_to_ai_probability : ℤ
  yc_bait_score : Option ℤ
  delusion_index : Option ℤ
  founder_rank : Option String
  goblin_verdict : Option String
  composite_score : Option ℤ

/-- One request as the handler sees it, with the text-derived quantities
(`countMatches` results and word count) and the `Math.random()` draws
made explicit. -/
structure HandlerInput where
  method : String
  header : Option String
  remote : Option String
  idea : Option String
  aiHits : ℕ
  buzzHits : ℕ
  cringeHits : ℕ
  wordCount : ℕ
  u1 : ℚ
  u2 : ℚ
  u3 : ℚ
  u4 : ℚ
  u5 : ℚ

/-- The scoring part of the handler body (everything after input
validation): heuristics, the LLM call outcome, clamping of the two
augmented fields, and assembly of the response.  `yc_bait_score` is
clamped into `[0, 100]`, `delusion_index` into `[55, 100]`; a missing
numeric field stays `NaN` through `clamp` (`Option.map`), drags the
composite to `NaN`, and `founder_rank` / `goblin_verdict` are passed
through with no validation whatsoever. -/
noncomputable def scoreStage (inp : HandlerInput) (llm : LlmOutcome) :
    Except ApiError ScoreResponse :=
  let ai := scoreFromHits inp.aiHits 2.5 inp.u1
  let buzzRaw := scoreFromHits inp.buzzHits 2 inp.u2
  let buzz := clamp ((buzzRaw : ℤ) : ℚ) 0 100
  let cringe := scoreFromHits inp.cringeHits 3 inp.u3
  let market := marketViability inp.wordCount ai buzz inp.u4
  let pivot := pivotScore ai buzz market inp.u5
  match llm with
  | LlmOutcome.httpError => Except.error ApiError.llmFailed
  | LlmOutcome.badJson => Except.error ApiError.internal
  | LlmOutcome.ok j =>
      let yc := Option.map (fun q => clamp q 0 100) j.yc_bait_score
      let del := Option.map (fun q => clamp q 55 100) j.delusion_index
      let comp : Option ℤ :=
        match yc, del with
        | some y, some d => some (compositeScore ai buzz cringe market pivot y d)
        | _, _ => none
      Except.ok
        ⟨ai, buzz, cringe, market, pivot, yc, del, j.founder_rank,
          j.goblin_verdict, comp⟩

/-- The handler's control flow in source order: method check, identity
derivation, rate-limit check (`429` on denial), `!idea` check (`400`),
then the scoring stage.  Returns the response together with the
rate-limiter state after the request. -/
noncomputable def handlerRun (inp : HandlerInput) (llm : LlmOutcome)
    (st : RLState) : Except ApiError ScoreResponse × RLState :=
  if inp.method = "POST" then
    let ip := deriveIp inp.header inp.remote
    let rl := getRateLimit ip st
    if rl.1.1 then
      if jsFalsyIdea inp.idea then (Except.error ApiError.missingIdea, rl.2)
      else (scoreStage inp llm, rl.2)
    else (Except.error ApiError.rateLimited, rl.2)
  else (Except.error ApiError.methodNotAllowed, st)

/-- Range predicate for an augmented metric: the field must be an actual
integer (not `NaN`) inside its declared interval. -/
def metricOk (v : Option ℤ) (lo hi : ℤ) : Prop :=
  match v with
  | some n => lo ≤ n ∧ n ≤ hi
  | none => False

/-- All seven metrics of a response are integers in their declared
ranges: `[0, 100]`, except `[55, 100]` for `delusion_index`. -/
def scoresInRange (r : ScoreResponse) : Prop :=
  (0 ≤ r.ai_hype_beast ∧ r.ai_hype_beast ≤ 100) ∧
  (0 ≤ r.buzzword_density ∧ r.buzzword_density ≤ 100) ∧
  (0 ≤ r.cringe_founder_energy ∧ r.cringe_founder_energy ≤ 100) ∧
  (0 ≤ r.market_viability ∧ r.market_viability ≤ 100) ∧
  (0 ≤ r.pivot_to_ai_probability ∧ r.pivot_to_ai_probability ≤ 100) ∧
  metricOk r.yc_bait_score 0 100 ∧
  metricOk r.delusion_index 55 100

/-- A request outcome that is a success whose seven metrics are all in
range (an error outcome does not satisfy this). -/
def resultInRange : Except ApiError ScoreResponse → Prop
  | Except.ok r => scoresInRange r
  | Except.error _ => False

theorem scoreFromHits_range (h : ℕ) (ramp u : ℚ) :
    0 ≤ scoreFromHits h ramp u ∧ scoreFromHits h ramp u ≤ 100 :=
  clamp_mem _ _ _ (by norm_num)

theorem marketViability_range (w : ℕ) (ai buzz : ℤ) (u : ℚ) :
    0 ≤ marketViability w ai buzz u ∧ marketViability w ai buzz u ≤ 100 :=
  clamp_mem _ _ _ (by norm_num)

theorem pivotScore_range (ai buzz market : ℤ) (u : ℚ) :
    0 ≤ pivotScore ai buzz market u ∧ pivotScore ai buzz market u ≤ 100 := by
  unfold pivotScore
  split_ifs <;> exact clamp_mem _ _ _ (by norm_num)

/-- C1 (amended): on every accepted request whose augmentation reply
carries both numeric fields, the returned response has all seven metrics
inside their declared ranges — `[0, 100]` for six of them, `[55, 100]`
for `delusion_index`.  (When a numeric reply field is missing, the
request still succeeds but that field and the composite are `NaN`; see
the counterexample.) -/
theorem returned_metrics_in_range (inp : HandlerInput) (st : RLState)
    (j : LlmJson) (yq dq : ℚ)
    (hm : inp.method = "POST")
    (hlim : st (deriveIp inp.header inp.remote) < REQUESTS_PER_HOUR)
    (hidea : jsFalsyIdea inp.idea = false)
    (hy : j.yc_bait_score = some yq)
    (hd : j.delusion_index = some dq) :
    resultInRange (handlerRun inp (LlmOutcome.ok j) st).1 := by
  have hrl := getRateLimit_allowed hlim
  simp [handlerRun, scoreStage, hm, hrl, hidea, hy, hd, resultInRange,
    scoresInRange, metricOk]
  exact ⟨scoreFromHits_range _ _ _, clamp_mem _ _ _ (by norm_num),
    scoreFromHits_range _ _ _, marketViability_range _ _ _ _,
    pivotScore_range _ _ _ _, clamp_mem _ _ _ (by norm_num),
    clamp_mem _ _ _ (by norm_num)⟩

/-- C1 witness: a concrete accepted request with both numeric reply
fields present (120 is clamped to 100, 10 is lifted to the 55 floor). -/
theorem returned_metrics_in_range_witness :
    resultInRange
      (handlerRun ⟨"POST", none, none, some "x", 1, 2, 3, 4, 0, 0, 0, 0, 0⟩
        (LlmOutcome.ok ⟨some 120, some 10, some "Chad", some "v"⟩)
        freshState).1 :=
  returned_metrics_in_range _ _ _ 120 10 rfl (by decide) rfl rfl rfl

/-- C1 counterexample: a request whose augmentation reply is well-formed
JSON but lacks `yc_bait_score` still returns a 200 response, and the
returned `yc_bait_score` is `NaN` (modelled `none`) — not an integer in
`[0, 100]` as the claim requires. -/
theorem nan_yc_returned_cex :
    Except.map (fun r => r.yc_bait_score)
      (handlerRun ⟨"POST", none, none, some "x", 1, 2, 3, 4, 0, 0, 0, 0, 0⟩
        (LlmOutcome.ok ⟨none, some 70, some "Chad", some "v"⟩)
        freshState).1 = Except.ok none ∧
    ¬ metricOk none 0 100 :=
  ⟨rfl, fun h => h⟩

/-- C3 (amended): a request with missing or empty idea text is rejected
with the 400 input error, but only after the rate-limit check: when the
caller is below the threshold the rejected request still increments its
stored rate-limit count by one. -/
theorem input_error_after_rate_limit (inp : HandlerInput)
    (llm : LlmOutcome) (st : RLState)
    (hm : inp.method = "POST")
    (hidea : jsFalsyIdea inp.idea = true)
    (hlim : st (deriveIp inp.header inp.remote) < REQUESTS_PER_HOUR) :
    (handlerRun inp llm st).1 = Except.error ApiError.missingIdea ∧
    (handlerRun inp llm st).2 (deriveIp inp.header inp.remote) =
      st (deriveIp inp.header inp.remote) + 1 := by
  have hrl := getRateLimit_allowed hlim
  constructor <;> simp [handlerRun, hm, hrl, hidea]

/-- C3 witness: a concrete fresh caller posting with no idea field. -/
theorem input_error_after_rate_limit_witness :
    jsFalsyIdea (none : Option String) = true ∧
    freshState (deriveIp none none) < REQUESTS_PER_HOUR ∧
    ((handlerRun ⟨"POST", none, none, none, 0, 0, 0, 0, 0, 0, 0, 0, 0⟩
        LlmOutcome.httpError freshState).1 =
          Except.error ApiError.missingIdea ∧
      (handlerRun ⟨"POST", none, none, none, 0, 0, 0, 0, 0, 0, 0, 0, 0⟩
        LlmOutcome.httpError freshState).2 (deriveIp none none) =
        freshState (deriveIp none none) + 1) :=
  ⟨rfl, by decide,
    input_error_after_rate_limit _ _ _ rfl rfl (by decide)⟩

/-- C3 counterexample: a fresh caller posting an empty idea is rejected
with the input error, yet its stored rate-limit count changes from 0 to
1 — the claim's "no side effects / count unchanged" is false, and the
rate-limit check demonstrably ran first. -/
theorem empty_idea_consumes_token_cex :
    freshState "unknown" = 0 ∧
    (handlerRun ⟨"POST", none, none, some "", 0, 0, 0, 0, 0, 0, 0, 0, 0⟩
      LlmOutcome.httpError freshState).1 =
        Except.error ApiError.missingIdea ∧
    (handlerRun ⟨"POST", none, none, some "", 0, 0, 0, 0, 0, 0, 0, 0, 0⟩
      LlmOutcome.httpError freshState).2 "unknown" = 1 :=
  ⟨rfl, rfl, rfl⟩

/-- C4 (amended): the handler performs no validation of `founder_rank`:
on every accepted request the reply's label — whatever string it is, or
even a missing field — is passed through unchanged into the returned
response, and no error is raised for unrecognized labels. -/
theorem founder_rank_passthrough (inp : HandlerInput) (st : RLState)
    (j : LlmJson)
    (hm : inp.method = "POST")
    (hlim : st (deriveIp inp.header inp.remote) < REQUESTS_PER_HOUR)
    (hidea : jsFalsyIdea inp.idea = false) :
    Except.map (fun r => r.founder_rank)
      (handlerRun inp (LlmOutcome.ok j) st).1 = Except.ok j.founder_rank := by
  have hrl := getRateLimit_allowed hlim
  simp [handlerRun, scoreStage, hm, hrl, hidea, Except.map]

/-- C4 witness: a concrete accepted request whose reply carries the
enumerated label `"Beta"`. -/
theorem founder_rank_passthrough_witness :
    jsFalsyIdea (some "x") = false ∧
    Except.map (fun r => r.founder_rank)
      (handlerRun ⟨"POST", none, none, some "x", 0, 0, 0, 0, 0, 0, 0, 0, 0⟩
        (LlmOutcome.ok ⟨some 80, some 70, some "Beta", some "v"⟩)
        freshState).1 = Except.ok (some "Beta") :=
  ⟨rfl, founder_rank_passthrough _ _ _ rfl (by decide) rfl⟩

/-- C4 counterexample: the label `"Sigma"` is none of the four
enumerated ranks, yet the request succeeds and the returned response
carries `founder_rank = "Sigma"` — no parse error is raised. -/
theorem unrecognized_rank_accepted_cex :
    ("Sigma" ∉
        (["Chad", "Beta", "Gamma", "Founder Extraordinaire"] :
          List String)) ∧
    Except.map (fun r => r.founder_rank)
      (handlerRun ⟨"POST", none, none, some "x", 0, 0, 0, 0, 0, 0, 0, 0, 0⟩
        (LlmOutcome.ok ⟨some 80, some 70, some "Sigma", some "v"⟩)
        freshState).1 = Except.ok (some "Sigma") :=
  ⟨by decide, rfl⟩

/-- Success test on a request outcome. -/
def isOkE : Except ApiError ScoreResponse → Bool
  | Except.ok _ => true
  | Except.error _ => false

/-- C5 (amended): an augmentation reply whose body cannot be parsed as
structured data fails the request (the catch-all 500) and no score is
returned; but a well-formed reply missing required fields is NOT
rejected — the request still succeeds for every parsed object `j`,
missing numeric fields propagating as `NaN`. -/
theorem parse_failure_vs_missing_fields (inp : HandlerInput)
    (st : RLState) (j : LlmJson)
    (hm : inp.method = "POST")
    (hlim : st (deriveIp inp.header inp.remote) < REQUESTS_PER_HOUR)
    (hidea : jsFalsyIdea inp.idea = false) :
    (handlerRun inp LlmOutcome.badJson st).1 =
      Except.error ApiError.internal ∧
    isOkE (handlerRun inp (LlmOutcome.ok j) st).1 = true := by
  have hrl := getRateLimit_allowed hlim
  constructor <;> simp [handlerRun, scoreStage, hm, hrl, hidea, isOkE]

/-- C5 witness: a concrete accepted request, once with an unparseable
reply body and once with a fully populated parsed reply. -/
theorem parse_failure_vs_missing_fields_witness :
    jsFalsyIdea (some "x") = false ∧
    ((handlerRun ⟨"POST", none, none, some "x", 0, 0, 0, 0, 0, 0, 0, 0, 0⟩
        LlmOutcome.badJson freshState).1 = Except.error ApiError.internal ∧
      isOkE
        (handlerRun ⟨"POST", none, none, some "x", 0, 0, 0, 0, 0, 0, 0, 0, 0⟩
          (LlmOutcome.ok ⟨some 1, some 2, some "Chad", some "v"⟩)
          freshState).1 = true) :=
  ⟨rfl, parse_failure_vs_missing_fields _ _ _ rfl (by decide) rfl⟩

/-- C5 counterexample: a well-formed reply missing all four required
fields does not fail the request: the handler returns success, with the
composite score `NaN` (modelled `none`) — contradicting "fails with a
ParseError and the caller receives no ScoreSet". -/
theorem missing_fields_still_ok_cex :
    isOkE
      (handlerRun ⟨"POST", none, none, some "x", 0, 0, 0, 0, 0, 0, 0, 0, 0⟩
        (LlmOutcome.ok ⟨none, none, none, none⟩) freshState).1 = true ∧
    Except.map (fun r => r.composite_score)
      (handlerRun ⟨"POST", none, none, some "x", 0, 0, 0, 0, 0, 0, 0, 0, 0⟩
        (LlmOutcome.ok ⟨none, none, none, none⟩) freshState).1 =
      Except.ok none :=
  ⟨rfl, rfl⟩

end FDI
